import Mathlib

/-!
Verification development for the FAQ chatbot query-resolution pipeline
(`chatbot.py`): FAQ loading, language detection, translation with graceful
fallback, fuzzy matching, and threshold-based resolution.

External services (the langdetect detector and the GoogleTranslator backend)
are modelled as oracle parameters: a detector may fail (LangDetectException)
and a translation backend may fail with a message; both are passed in as
`Except`-valued functions.
-/

/-- A JSON record of the FAQ document. Each optional field models the presence
or absence of the corresponding key in the JSON object (`item.get(key)`
returning the value or `None`). -/
structure Record where
  question : Option String
  q : Option String
  title : Option String
  answer : Option String
  ans : Option String
deriving DecidableEq, Repr

/-- Python's `x or rest` on an optional string `x`: falls through to `rest`
when the key is absent (`None`) or its value is the empty string (falsy). -/
def pyOr (x : Option String) (rest : String) : String :=
  match x with
  | some s => if s = "" then rest else s
  | none => rest

/-- The question extraction chain of `load_faqs`:
`item.get("question") or item.get("q") or item.get("title") or ""`. -/
def resolvedQuestion (item : Record) : String :=
  pyOr item.question (pyOr item.q (pyOr item.title ""))

/-- The answer extraction chain of `load_faqs`:
`item.get("answer") or item.get("ans") or ""`. -/
def resolvedAnswer (item : Record) : String :=
  pyOr item.answer (pyOr item.ans "")

/-- A loaded FAQ entry, as appended by `load_faqs`. -/
structure FaqEntry where
  question : String
  answer : String
deriving DecidableEq, Repr

/-- Python `str.strip()`: remove leading and trailing whitespace (written on
the character list so that it reduces structurally). -/
def pyStrip (s : String) : String :=
  ⟨((s.data.dropWhile Char.isWhitespace).reverse.dropWhile Char.isWhitespace).reverse⟩

/-- `load_faqs` (chatbot.py lines 17-29), applied to the parsed JSON list:
for each record resolve the question and answer fields, keep the record
when the resolved question is truthy (`if q:`), and append the entry with
both strings stripped. The file-existence check and JSON parsing happen
before this point and are the caller's input here. -/
def load_faqs (data : List Record) : List FaqEntry :=
  match data with
  | [] => []
  | item :: rest =>
    let q := resolvedQuestion item
    let a := resolvedAnswer item
    if q ≠ "" then ⟨pyStrip q, pyStrip a⟩ :: load_faqs rest
    else load_faqs rest

/-- `detect_language` (chatbot.py lines 31-36): call the detector; on a
LangDetectException (modelled as `Except.error`) fall back to "en". -/
def detect_language (det : String → Except Unit String) (text : String) : String :=
  match det text with
  | Except.ok lang => lang
  | Except.error _ => "en"

/-- The observable outcome of one `translate_text` call: the returned string,
the warnings emitted via `st.warning`, and whether the backend was invoked. -/
structure TranslateOut where
  result : String
  warnings : List String
  backendCalled : Bool
deriving DecidableEq, Repr

/-- `translate_text` (chatbot.py lines 38-50): empty text returns empty with
no backend call; equal source and target short-circuit; otherwise the
GoogleTranslator backend (an oracle taking source, target, text) is invoked,
and on any failure a warning is emitted and the original text returned. -/
def translate_text (backend : String → String → String → Except String String)
    (text : String) (src : String) (tgt : String) : TranslateOut :=
  if text = "" then ⟨"", [], false⟩
  else if src = tgt then ⟨text, [], false⟩
  else
    match backend (if src ≠ "auto" then src else "auto") tgt text with
    | Except.ok translated => ⟨translated, [], true⟩
    | Except.error e =>
      ⟨text, ["Translation service error (proceeding without translation): " ++ e], true⟩

/-- Tokenizer worker for Python `str.split()` with no arguments: walk the
characters, accumulating the current token (reversed) and emitting it at
each whitespace run boundary. -/
def splitWSAux : List Char → List Char → List String
  | acc, [] => if acc.isEmpty then [] else [⟨acc.reverse⟩]
  | acc, c :: cs =>
    if c.isWhitespace then
      if acc.isEmpty then splitWSAux [] cs
      else ⟨acc.reverse⟩ :: splitWSAux [] cs
    else splitWSAux (c :: acc) cs

/-- Python `str.split()` with no arguments: split on runs of whitespace,
dropping empty pieces. -/
def splitWS (s : String) : List String :=
  splitWSAux [] s.data

/-- Lexicographic comparison of character lists by code point, the order
Python's `sorted` uses on strings. -/
def leChars : List Char → List Char → Bool
  | [], _ => true
  | _ :: _, [] => false
  | c :: cs, d :: ds => if c = d then leChars cs ds else decide (c < d)

/-- Lexicographic order on strings by code point. -/
def tokLe (a b : String) : Prop := leChars a.data b.data = true

instance : DecidableRel tokLe := fun a b => by
  unfold tokLe
  infer_instance

/-- Totality of the lexicographic comparison. -/
def leChars_total : ∀ x y, leChars x y = true ∨ leChars y x = true
  | [], _ => Or.inl rfl
  | _ :: _, [] => Or.inr rfl
  | c :: cs, d :: ds => by
    by_cases hcd : c = d
    · subst hcd
      simpa [leChars] using leChars_total cs ds
    · rcases lt_trichotomy c d with h | h | h
      · left
        simp [leChars, hcd, h]
      · exact absurd h hcd
      · right
        have hdc : ¬ d = c := fun hv => hcd (Eq.symm hv)
        simp [leChars, hdc, h]

/-- Transitivity of the lexicographic comparison. -/
def leChars_trans : ∀ x y z, leChars x y = true → leChars y z = true →
    leChars x z = true
  | [], _, _ => fun _ _ => rfl
  | _ :: _, [], _ => fun hab _ => by simp [leChars] at hab
  | _ :: _, _ :: _, [] => fun _ hbc => by simp [leChars] at hbc
  | c :: cs, d :: ds, e :: es => fun hab hbc => by
    by_cases hcd : c = d
    · subst hcd
      by_cases hce : c = e
      · subst hce
        simp only [leChars, if_pos rfl] at hab hbc ⊢
        exact leChars_trans cs ds es hab hbc
      · simp only [leChars, if_pos rfl] at hab
        simp only [leChars, if_neg hce] at hbc ⊢
        exact hbc
    · simp only [leChars, if_neg hcd, decide_eq_true_eq] at hab
      by_cases hde : d = e
      · subst hde
        simp only [leChars, if_neg hcd, decide_eq_true_eq]
        exact hab
      · simp only [leChars, if_neg hde, decide_eq_true_eq] at hbc
        have hce : c ≠ e := fun he => absurd (lt_trans hab hbc) (he ▸ lt_irrefl c)
        simp only [leChars, if_neg hce, decide_eq_true_eq]
        exact lt_trans hab hbc

/-- Antisymmetry of the lexicographic comparison. -/
def leChars_antisymm : ∀ x y, leChars x y = true → leChars y x = true → x = y
  | [], [] => fun _ _ => rfl
  | [], _ :: _ => fun _ hba => by simp [leChars] at hba
  | _ :: _, [] => fun hab _ => by simp [leChars] at hab
  | c :: cs, d :: ds => fun hab hba => by
    by_cases hcd : c = d
    · subst hcd
      simp only [leChars, if_pos rfl] at hab hba
      rw [leChars_antisymm cs ds hab hba]
    · simp only [leChars, if_neg hcd, decide_eq_true_eq] at hab
      simp only [leChars, if_neg (fun hv => hcd (Eq.symm hv)), decide_eq_true_eq] at hba
      exact absurd (lt_trans hab hba) (lt_irrefl c)

instance : IsTotal String tokLe :=
  ⟨fun a b => leChars_total a.data b.data⟩

instance : IsTrans String tokLe :=
  ⟨fun a b c hab hbc => leChars_trans a.data b.data c.data hab hbc⟩

instance : IsAntisymm String tokLe :=
  ⟨fun a b hab hba => by
    have h := leChars_antisymm a.data b.data hab hba
    cases a
    cases b
    exact congrArg String.mk h⟩

/-- Modelled from the spec: the scorer tokenizes each string on whitespace
into a set; canonically this is the deduplicated token list sorted by the
lexicographic string order. -/
def sortedTokens (s : String) : List String :=
  ((splitWS s).dedup).insertionSort tokLe

/-- Joining a token list back into a comparison string with single spaces. -/
def joinTok : List String → String
  | [] => ""
  | [t] => t
  | t :: ts => t ++ " " ++ joinTok ts

/-- One inner step of the Wagner-Fischer dynamic program for the indel
distance: given the current character `x` of the first string, the
remaining characters of the second string, the rest of the previous row,
the diagonal value and the value to the left, produce the rest of the new
row. -/
def nextRowAux (x : Char) : List Char → List Nat → Nat → Nat → List Nat
  | [], _, _, _ => []
  | _ :: _, [], _, _ => []
  | y :: ys, p :: ps, diag, left =>
    let cur := if x = y then diag else 1 + min p left
    cur :: nextRowAux x ys ps p cur

/-- One full row update of the Wagner-Fischer dynamic program. -/
def nextRow (x : Char) (ys : List Char) (prev : List Nat) : List Nat :=
  match prev with
  | [] => []
  | p0 :: ptail => (p0 + 1) :: nextRowAux x ys ptail p0 (p0 + 1)

/-- Indel (insertion/deletion) edit distance between two character lists,
the distance underlying the standard fuzzy ratio, computed by the
Wagner-Fischer dynamic program (structural recursion throughout). -/
def indel (xs ys : List Char) : Nat :=
  (xs.foldl (fun row x => nextRow x ys row) (List.range (ys.length + 1))).getLastD 0

/-- Modelled from the spec: a standard edit-distance-based similarity
scaled to 0-100 between two strings (100 for two empty strings). -/
def editSim (a b : String) : Nat :=
  let t := a.length + b.length
  if t = 0 then 100 else (100 * (t - indel a.data b.data)) / t

/-- The token-set comparison on two canonical (sorted, deduplicated) token
lists: sorted intersection, the two sorted remainders, the two combined
comparison strings, and the maximum of the three pairwise similarities. -/
def tsrOfTokens (ta tb : List String) : Nat :=
  let inter := ta.filter (fun t => tb.contains t)
  let diffA := ta.filter (fun t => !(tb.contains t))
  let diffB := tb.filter (fun t => !(ta.contains t))
  let s0 := joinTok inter
  let s1 := joinTok (inter ++ diffA)
  let s2 := joinTok (inter ++ diffB)
  max (editSim s0 s1) (max (editSim s0 s2) (editSim s1 s2))

/-- Modelled from the spec: `fuzz.token_set_ratio` — the rapidfuzz scorer
used by `best_match` is third-party library code absent from this
repository, so it is modelled from the spec's reference algorithm:
tokenize both strings on whitespace into sets, form the sorted
intersection and the two sorted remainders, build the two comparison
strings, and take the maximum of the three pairwise edit-distance-based
ratios scaled to 0-100. -/
def token_set_ratio (a b : String) : Nat :=
  tsrOfTokens (sortedTokens a) (sortedTokens b)

/-- chatbot.py line 11: the fixed pivot language for matching. -/
def LANGUAGE_FOR_MATCHING : String := "en"

/-- chatbot.py line 12: the module-level top-k constant. -/
def TOP_K : Nat := 5

/-- chatbot.py line 13: the default confidence threshold (percent). -/
def CONFIDENCE_THRESHOLD : Nat := 60

/-- Comparator for the top-k selection: higher score first, ties broken by
the original collection index (lower index first). -/
def extractLeP (a b : String × Nat × Nat) : Prop :=
  b.2.1 < a.2.1 ∨ (a.2.1 = b.2.1 ∧ a.2.2 ≤ b.2.2)

instance : DecidableRel extractLeP := fun a b => by
  unfold extractLeP
  infer_instance

instance : IsTotal (String × Nat × Nat) extractLeP :=
  ⟨fun a b => by unfold extractLeP; omega⟩

instance : IsTrans (String × Nat × Nat) extractLeP :=
  ⟨fun a b c hab hbc => by unfold extractLeP at *; omega⟩

/-- Modelled from the spec: `rapidfuzz.process.extract` (third-party library
code absent from this repository) — score every choice with the scorer,
return the `limit` best `(choice, score, index)` tuples sorted by
descending score with ties broken by original collection order (the
stable top-k selection the spec describes). -/
def extract (query : String) (choices : List String) (limit : Nat) :
    List (String × Nat × Nat) :=
  let scored := choices.enum.map (fun p => (p.2, token_set_ratio query p.2, p.1))
  (scored.insertionSort extractLeP).take limit

/-- One structured match record built by `best_match`. -/
structure MatchRec where
  question : String
  answer : String
  score : Nat
  index : Nat
deriving DecidableEq, Repr

/-- `best_match` (chatbot.py lines 52-69): collect the stored questions,
run the top-k extraction with the token-set scorer, and convert each
`(match_text, score, idx)` tuple into a structured record by indexing back
into the lists (indexes are in range by construction; `getD` models the
always-successful Python indexing). -/
def best_match (query_en : String) (qa_list : List FaqEntry) (top_k : Nat) :
    List MatchRec :=
  let questions := qa_list.map (fun item => item.question)
  let results := extract query_en questions top_k
  results.map (fun r =>
    { question := questions.getD r.2.2 ""
      answer := (qa_list.getD r.2.2 ⟨"", ""⟩).answer
      score := r.2.1
      index := r.2.2 })

/-- The dictionary returned by `get_answer`. `query_en = none` models the
absence of the `"query_en"` key from the returned Python dict (the
no-candidates return at line 79 omits it; the other two returns include
it). -/
structure AnswerResult where
  answer : Option String
  score : Nat
  matchList : List MatchRec
  src_lang : String
  query_en : Option String
deriving DecidableEq, Repr

/-- `get_answer` (chatbot.py lines 71-88): detect the language, translate
the input to the matching language, compute the top matches with the
module default `TOP_K`, and decide: no matches → fallback with score 0;
best score below threshold → fallback carrying the candidates; otherwise
translate the best answer back to the source language. -/
def get_answer (det : String → Except Unit String)
    (backend : String → String → String → Except String String)
    (user_input : String) (qa_list : List FaqEntry) (conf_thresh : Nat) :
    AnswerResult :=
  let src_lang := detect_language det user_input
  let query_en := (translate_text backend user_input src_lang LANGUAGE_FOR_MATCHING).result
  let matchList := best_match query_en qa_list TOP_K
  if matchList.isEmpty then
    { answer := none, score := 0, matchList := [], src_lang := src_lang, query_en := none }
  else
    let best := matchList.headD ⟨"", "", 0, 0⟩
    if best.score < conf_thresh then
      { answer := none, score := best.score, matchList := matchList,
        src_lang := src_lang, query_en := some query_en }
    else
      { answer := some (translate_text backend best.answer LANGUAGE_FOR_MATCHING src_lang).result,
        score := best.score, matchList := matchList,
        src_lang := src_lang, query_en := some query_en }

/-! ### Helper lemmas -/

theorem editSim_le_100 (a b : String) : editSim a b ≤ 100 := by
  unfold editSim
  by_cases h : a.length + b.length = 0
  · simp [h]
  · simp only [h, if_neg h]
    calc 100 * (a.length + b.length - indel a.data b.data) / (a.length + b.length)
        ≤ 100 * (a.length + b.length) / (a.length + b.length) :=
          Nat.div_le_div_right (Nat.mul_le_mul_left _ (Nat.sub_le _ _))
      _ = 100 := Nat.mul_div_cancel _ (Nat.pos_of_ne_zero h)

theorem token_set_ratio_le_100 (a b : String) : token_set_ratio a b ≤ 100 := by
  unfold token_set_ratio tsrOfTokens
  exact max_le (editSim_le_100 _ _) (max_le (editSim_le_100 _ _) (editSim_le_100 _ _))

theorem length_extract (query : String) (choices : List String) (limit : Nat) :
    (extract query choices limit).length = min limit choices.length := by
  unfold extract
  simp

theorem length_best_match (query : String) (qa_list : List FaqEntry) (top_k : Nat) :
    (best_match query qa_list top_k).length = min top_k qa_list.length := by
  unfold best_match
  simp [length_extract]

theorem best_match_eq_nil_iff (query : String) (qa_list : List FaqEntry) :
    best_match query qa_list TOP_K = [] ↔ qa_list = [] := by
  constructor
  · intro h
    have hl := length_best_match query qa_list TOP_K
    rw [h] at hl
    simp [TOP_K] at hl
    have : qa_list.length = 0 := by omega
    exact List.length_eq_zero.mp this
  · intro h
    subst h
    rfl

theorem get_answer_eq (det : String → Except Unit String)
    (backend : String → String → String → Except String String)
    (user_input : String) (qa_list : List FaqEntry) (conf_thresh : Nat) :
    get_answer det backend user_input qa_list conf_thresh =
      (match best_match ((translate_text backend user_input
          (detect_language det user_input) LANGUAGE_FOR_MATCHING).result) qa_list TOP_K with
       | [] =>
         ⟨none, 0, [], detect_language det user_input, none⟩
       | best :: rest =>
         if best.score < conf_thresh then
           ⟨none, best.score, best :: rest, detect_language det user_input,
             some ((translate_text backend user_input
               (detect_language det user_input) LANGUAGE_FOR_MATCHING).result)⟩
         else
           ⟨some ((translate_text backend best.answer LANGUAGE_FOR_MATCHING
               (detect_language det user_input)).result),
             best.score, best :: rest, detect_language det user_input,
             some ((translate_text backend user_input
               (detect_language det user_input) LANGUAGE_FOR_MATCHING).result)⟩) := by
  unfold get_answer
  cases h : best_match ((translate_text backend user_input
      (detect_language det user_input) LANGUAGE_FOR_MATCHING).result) qa_list TOP_K with
  | nil => simp [h]
  | cons best rest =>
    by_cases hs : best.score < conf_thresh <;> simp [h, hs]

/-! ### Claim theorems -/

/-- C1: for every query, FAQ list, and threshold, `get_answer` follows the
DECIDE case split exactly: when the candidate list is empty the result has
answer `none`, score `0` and no candidates; when the best score is strictly
below the threshold the result has answer `none`, the best score and the
full candidate list; otherwise the answer is the best answer translated
from the matching language back to the source language, with the best
score and the full candidate list. -/
theorem get_answer_decide_case_split (det : String → Except Unit String)
    (backend : String → String → String → Except String String)
    (user_input : String) (qa_list : List FaqEntry) (conf_thresh : Nat) :
    get_answer det backend user_input qa_list conf_thresh =
      (match best_match ((translate_text backend user_input
          (detect_language det user_input) LANGUAGE_FOR_MATCHING).result) qa_list TOP_K with
       | [] =>
         ⟨none, 0, [], detect_language det user_input, none⟩
       | best :: rest =>
         if best.score < conf_thresh then
           ⟨none, best.score, best :: rest, detect_language det user_input,
             some ((translate_text backend user_input
               (detect_language det user_input) LANGUAGE_FOR_MATCHING).result)⟩
         else
           ⟨some ((translate_text backend best.answer LANGUAGE_FOR_MATCHING
               (detect_language det user_input)).result),
             best.score, best :: rest, detect_language det user_input,
             some ((translate_text backend user_input
               (detect_language det user_input) LANGUAGE_FOR_MATCHING).result)⟩) :=
  get_answer_eq det backend user_input qa_list conf_thresh

/-- C2 counterexample: a record whose question is whitespace-only is NOT
dropped by `load_faqs`; it yields an entry whose (stripped) question is
empty, contradicting the claim that every returned entry has a non-empty
question after trimming. -/
theorem load_faqs_whitespace_question_counterexample :
    load_faqs [⟨some "   ", none, none, some "Y", none⟩] = [⟨"", "Y"⟩] ∧
    ¬ (∀ e ∈ load_faqs [⟨some "   ", none, none, some "Y", none⟩], e.question ≠ "") := by
  constructor
  · decide
  · decide

/-- C2 amended: `load_faqs` keeps exactly the records whose resolved
question is non-empty BEFORE stripping (Python truthiness of the raw
field value), mapping each kept record to its stripped question/answer
pair; a whitespace-only question is therefore kept and yields an entry
whose question is empty after stripping. -/
theorem load_faqs_drops_iff_resolved_question_empty (data : List Record) :
    load_faqs data =
      (data.filter (fun item => decide (resolvedQuestion item ≠ ""))).map
        (fun item => ⟨pyStrip (resolvedQuestion item), pyStrip (resolvedAnswer item)⟩) := by
  induction data with
  | nil => rfl
  | cons item rest ih =>
    by_cases h : resolvedQuestion item = "" <;>
      simp [load_faqs, List.filter_cons, h, ih]

/-- C5 counterexample: in the record `{question: "", q: "X", answer: "",
ans: "Y"}` the earlier-named fields `question` and `answer` are present
(with empty values), yet the later-named fields `q` and `ans` supply the
extracted values — contradicting the claim that a later-named field never
supplies the value when an earlier-named one is present. -/
theorem load_faqs_empty_string_field_falls_through :
    (Record.mk (some "") (some "X") none (some "") (some "Y")).question = some "" ∧
    (Record.mk (some "") (some "X") none (some "") (some "Y")).answer = some "" ∧
    load_faqs [Record.mk (some "") (some "X") none (some "") (some "Y")] = [⟨"X", "Y"⟩] := by
  refine ⟨rfl, rfl, ?_⟩
  decide

/-- C5 amended: the extraction takes the first field whose value is present
AND non-empty (Python truthiness), in order `question`, `q`, `title` for
the question and `answer`, `ans` for the answer; a later-named field
supplies the value only when every earlier-named field is absent or has an
empty value; the record `{q: "X", ans: "Y"}` yields `FaqEntry{question:
"X", answer: "Y"}`. -/
theorem load_faqs_first_truthy_field (r : Record) (x : String) (hx : x ≠ "") :
    load_faqs [⟨none, some "X", none, none, some "Y"⟩] = [⟨"X", "Y"⟩] ∧
    (r.question = some x → resolvedQuestion r = x) ∧
    ((r.question = none ∨ r.question = some "") → r.q = some x → resolvedQuestion r = x) ∧
    ((r.question = none ∨ r.question = some "") → (r.q = none ∨ r.q = some "") →
      r.title = some x → resolvedQuestion r = x) ∧
    (r.answer = some x → resolvedAnswer r = x) ∧
    ((r.answer = none ∨ r.answer = some "") → r.ans = some x → resolvedAnswer r = x) := by
  refine ⟨by decide, ?_, ?_, ?_, ?_, ?_⟩
  · intro hq
    simp [resolvedQuestion, pyOr, hq, hx]
  · rintro (hq | hq) hq2 <;> simp [resolvedQuestion, pyOr, hq, hq2, hx]
  · rintro (hq | hq) (hq2 | hq2) ht <;> simp [resolvedQuestion, pyOr, hq, hq2, ht, hx]
  · intro ha
    simp [resolvedAnswer, pyOr, ha, hx]
  · rintro (ha | ha) ha2 <;> simp [resolvedAnswer, pyOr, ha, ha2, hx]

/-- Witness for C5 amended at a concrete record. -/
theorem load_faqs_first_truthy_field_witness :
    resolvedQuestion ⟨some "hello", none, none, none, none⟩ = "hello" :=
  (load_faqs_first_truthy_field ⟨some "hello", none, none, none, none⟩ "hello"
    (by decide)).2.1 rfl

/-- C6: if the translation backend fails on every call, `translate_text`
still returns (it is a total function of its oracle), gives back the
original text unchanged, and emits at most one (non-fatal) warning. -/
theorem translate_text_backend_failure_returns_original
    (backend : String → String → String → Except String String)
    (text src tgt : String)
    (hb : ∀ s t x, ∃ e, backend s t x = Except.error e) :
    (translate_text backend text src tgt).result = text ∧
    (translate_text backend text src tgt).warnings.length ≤ 1 := by
  unfold translate_text
  by_cases h1 : text = ""
  · simp [h1]
  · by_cases h2 : src = tgt
    · simp [h1, h2]
    · obtain ⟨e, he⟩ := hb (if src ≠ "auto" then src else "auto") tgt text
      simp only [ite_not] at he
      simp [h1, h2, he]

/-- Witness for C6 with an unreachable backend. -/
theorem translate_text_backend_failure_returns_original_witness :
    (translate_text (fun _ _ _ => Except.error "offline") "hola" "es" "en").result = "hola" ∧
    (translate_text (fun _ _ _ => Except.error "offline") "hola" "es" "en").warnings.length ≤ 1 :=
  translate_text_backend_failure_returns_original
    (fun _ _ _ => Except.error "offline") "hola" "es" "en"
    (fun _ _ _ => ⟨"offline", rfl⟩)

/-- C7: translating with equal source and target language returns the text
unchanged and never invokes the backend, for every backend and text. -/
theorem translate_text_identity_same_language
    (backend : String → String → String → Except String String)
    (text L : String) :
    (translate_text backend text L L).result = text ∧
    (translate_text backend text L L).backendCalled = false := by
  unfold translate_text
  by_cases h : text = ""
  · simp [h]
  · simp [h]

/-- C3 counterexample: in the NO_CANDIDATES terminal state (empty FAQ
list) the dictionary returned by `get_answer` omits the `query_en`
(translatedQuery) key — modelled as the field being `none` — so the
translatedQuery field is NOT present in every terminal state. -/
theorem get_answer_no_candidates_omits_query_en :
    (get_answer (fun _ => Except.error ()) (fun _ _ t => Except.ok t)
      "hello" [] 60).query_en = none := by
  decide

/-- C3 amended: the result always carries answer, score, candidates and
source language, but the translatedQuery (`query_en`) key is present
exactly in the LOW_CONFIDENCE and MATCHED terminal states: it is absent
(`none`) precisely when the FAQ list — and hence the candidate list — is
empty. -/
theorem get_answer_query_en_none_iff_empty_store (det : String → Except Unit String)
    (backend : String → String → String → Except String String)
    (user_input : String) (qa_list : List FaqEntry) (conf_thresh : Nat) :
    (get_answer det backend user_input qa_list conf_thresh).query_en = none ↔
      qa_list = [] := by
  rw [get_answer_eq]
  cases h : best_match ((translate_text backend user_input
      (detect_language det user_input) LANGUAGE_FOR_MATCHING).result) qa_list TOP_K with
  | nil =>
    simp only
    rw [← best_match_eq_nil_iff ((translate_text backend user_input
      (detect_language det user_input) LANGUAGE_FOR_MATCHING).result) qa_list]
    simp [h]
  | cons best rest =>
    have : qa_list ≠ [] := by
      intro hq
      rw [(best_match_eq_nil_iff _ _).mpr hq] at h
      exact List.noConfusion h
    by_cases hs : best.score < conf_thresh <;> simp [hs, this]

/-- C8: `get_answer` is a total function: for every input and every oracle
behaviour (including failing detection and failing translation) it returns
a result, and that result's answer satisfies exactly one of `none` or
`some` of a string. -/
theorem get_answer_total_and_answer_dichotomy (det : String → Except Unit String)
    (backend : String → String → String → Except String String)
    (user_input : String) (qa_list : List FaqEntry) (conf_thresh : Nat) :
    ∃ r, get_answer det backend user_input qa_list conf_thresh = r ∧
      ((r.answer = none ∨ ∃ s, r.answer = some s) ∧
        ¬ (r.answer = none ∧ ∃ s, r.answer = some s)) := by
  refine ⟨get_answer det backend user_input qa_list conf_thresh, rfl, ?_, ?_⟩
  · cases h : (get_answer det backend user_input qa_list conf_thresh).answer with
    | none => exact Or.inl rfl
    | some s => exact Or.inr ⟨s, rfl⟩
  · rintro ⟨hnone, s, hsome⟩
    rw [hnone] at hsome
    exact Option.noConfusion hsome

/-- C10: `get_answer` takes no top-k parameter and always runs the matcher
with the module constant `TOP_K = 5`, so the candidate list of every
result has length at most 5. -/
theorem get_answer_top_k_fixed_at_five (det : String → Except Unit String)
    (backend : String → String → String → Except String String)
    (user_input : String) (qa_list : List FaqEntry) (conf_thresh : Nat) :
    (get_answer det backend user_input qa_list conf_thresh).matchList.length ≤ 5 ∧
    TOP_K = 5 := by
  refine ⟨?_, rfl⟩
  rw [get_answer_eq]
  cases h : best_match ((translate_text backend user_input
      (detect_language det user_input) LANGUAGE_FOR_MATCHING).result) qa_list TOP_K with
  | nil => simp
  | cons best rest =>
    have hl : (best :: rest).length ≤ 5 := by
      rw [← h, length_best_match]
      simp [TOP_K]
    by_cases hs : best.score < conf_thresh <;> simpa [hs] using hl

/-- C9: the token-set scorer factors through the SET of whitespace tokens
of each argument: two strings with the same token set (in particular, one
a reordering or duplication of the other's tokens) receive identical
scores against every third string, in either argument position. -/
theorem token_set_ratio_token_set_invariance (a a_2 b : String)
    (h : ∀ t, t ∈ splitWS a ↔ t ∈ splitWS a_2) :
    token_set_ratio a b = token_set_ratio a_2 b ∧
    token_set_ratio b a = token_set_ratio b a_2 := by
  have hperm : List.Perm ((splitWS a).dedup) ((splitWS a_2).dedup) :=
    (List.perm_ext_iff_of_nodup (List.nodup_dedup _) (List.nodup_dedup _)).mpr
      (fun t => by simpa [List.mem_dedup] using h t)
  have hsorted : sortedTokens a = sortedTokens a_2 := by
    unfold sortedTokens
    apply List.eq_of_perm_of_sorted (r := tokLe)
    · exact ((List.perm_insertionSort tokLe _).trans hperm).trans
        (List.perm_insertionSort tokLe _).symm
    · exact List.sorted_insertionSort tokLe _
    · exact List.sorted_insertionSort tokLe _
  unfold token_set_ratio
  rw [hsorted]
  exact ⟨rfl, rfl⟩

/-- Witness for C9: "x y y" is a reordering-with-duplication of the tokens
of "y x", and the scores coincide against "x z" on both sides. -/
theorem token_set_ratio_token_set_invariance_witness :
    token_set_ratio "x y y" "x z" = token_set_ratio "y x" "x z" ∧
    token_set_ratio "x z" "x y y" = token_set_ratio "x z" "y x" :=
  token_set_ratio_token_set_invariance "x y y" "y x" "x z" (by
    intro t
    have e1 : splitWS "x y y" = ["x", "y", "y"] := by decide
    have e2 : splitWS "y x" = ["y", "x"] := by decide
    rw [e1, e2]
    simp [List.mem_cons]
    tauto)

theorem extract_pairwise (query : String) (choices : List String) (limit : Nat) :
    (extract query choices limit).Pairwise extractLeP := by
  unfold extract
  exact List.Pairwise.sublist (List.take_sublist _ _)
    (List.sorted_insertionSort extractLeP _)

theorem extract_index_nodup (query : String) (choices : List String) (limit : Nat) :
    ((extract query choices limit).map (fun r => r.2.2)).Nodup := by
  unfold extract
  apply List.Nodup.sublist (List.Sublist.map _ (List.take_sublist _ _))
  have hperm := (List.perm_insertionSort extractLeP
    (choices.enum.map (fun p => (p.2, token_set_ratio query p.2, p.1)))).map
    (fun r : String × Nat × Nat => r.2.2)
  rw [hperm.nodup_iff, List.map_map]
  have : ((fun r : String × Nat × Nat => r.2.2) ∘
      (fun p : Nat × String => (p.2, token_set_ratio query p.2, p.1))) = Prod.fst := by
    funext p
    rfl
  rw [this, List.enum_map_fst]
  exact List.nodup_range _

theorem extract_score_le_100 (query : String) (choices : List String) (limit : Nat) :
    ∀ r ∈ extract query choices limit, r.2.1 ≤ 100 := by
  intro r hr
  unfold extract at hr
  have hr2 := List.mem_of_mem_take hr
  rw [List.mem_insertionSort] at hr2
  obtain ⟨p, _, rfl⟩ := List.mem_map.mp hr2
  exact token_set_ratio_le_100 query p.2

/-- C4: for every query, entry list and k at least 1, `best_match` returns
min(k, number of entries) records — in particular none when the store is
empty — sorted by non-increasing score, every score at most 100 (scores
are naturals, hence also at least 0), and ties broken by the original
collection order (equal scores appear in strictly increasing index
order). -/
theorem best_match_topk_spec (query : String) (entries : List FaqEntry) (k : Nat)
    (_hk : 1 ≤ k) :
    (best_match query entries k).length = min k entries.length ∧
    (best_match query entries k).Pairwise (fun a b => b.score ≤ a.score) ∧
    (∀ m ∈ best_match query entries k, m.score ≤ 100) ∧
    (best_match query entries k).Pairwise
      (fun a b => a.score = b.score → a.index < b.index) := by
  refine ⟨length_best_match query entries k, ?_, ?_, ?_⟩
  · unfold best_match
    rw [List.pairwise_map]
    apply List.Pairwise.imp ?_ (extract_pairwise query _ k)
    intro a b hab
    rcases hab with h | ⟨h1, _⟩
    · exact le_of_lt h
    · exact le_of_eq h1.symm
  · intro m hm
    unfold best_match at hm
    obtain ⟨r, hr, rfl⟩ := List.mem_map.mp hm
    exact extract_score_le_100 query _ k r hr
  · unfold best_match
    rw [List.pairwise_map]
    have h1 := extract_pairwise query (entries.map (fun item => item.question)) k
    have h2 : (extract query (entries.map (fun item => item.question)) k).Pairwise
        (fun a b => a.2.2 ≠ b.2.2) :=
      List.pairwise_map.mp (extract_index_nodup query _ k)
    apply List.Pairwise.imp ?_ (h1.and h2)
    intro a b hab hsc
    dsimp only at hsc ⊢
    rcases hab.1 with h | ⟨_, hle⟩
    · exact absurd hsc (by omega)
    · exact lt_of_le_of_ne hle hab.2

/-- Witness for C4 at a concrete query, store and k. -/
theorem best_match_topk_spec_witness :
    1 ≤ 2 ∧
    ((best_match "a" [⟨"a", "x"⟩] 2).length = min 2 1 ∧
      (best_match "a" [⟨"a", "x"⟩] 2).Pairwise (fun a b => b.score ≤ a.score) ∧
      (∀ m ∈ best_match "a" [⟨"a", "x"⟩] 2, m.score ≤ 100) ∧
      (best_match "a" [⟨"a", "x"⟩] 2).Pairwise
        (fun a b => a.score = b.score → a.index < b.index)) :=
  ⟨by decide, best_match_topk_spec "a" [⟨"a", "x"⟩] 2 (by decide)⟩
